import Mathlib

/-!
Verification of the project collaboration core of the ai_project_planner
repository: membership and role model, invitation lifecycle, optimistic
concurrency control, and access-policy enforcement.

The embedding follows the two source layers:

* the database migration (tables `projects`, `project_members`,
  `project_invitations`; triggers `add_project_owner` and
  `update_project_metadata`; row-level-security policies; the stored
  function `join_project_by_invitation`), and
* the TypeScript service layer `ProjectService` (createProject,
  updateProject, inviteToProject, joinProjectByInvitation,
  updateMemberRole, removeMember).

Timestamps and `now()` are modelled as natural numbers; uuids as natural
numbers; the opaque task and chart payloads as lists of naturals. The
database is a record of three row lists plus the external `auth.users`
id-to-email map that the schema references by foreign key.
-/

/-- Membership role, the `role` column of `project_members` with its CHECK
constraint `role IN ('owner', 'editor', 'viewer')`. -/
inductive Role
  | owner
  | editor
  | viewer
deriving DecidableEq, Repr

/-- Membership status, the `status` column of `project_members` with its
CHECK constraint `status IN ('pending', 'accepted', 'declined')`. -/
inductive MemberStatus
  | pending
  | accepted
  | declined
deriving DecidableEq, Repr

/-- Row of the `projects` table (columns used by the service layer,
including the collaboration columns `last_modified_by` and `version`
added by the migration). -/
structure ProjectRow where
  id : Nat
  userId : Nat
  title : String
  goal : String
  targetDate : String
  tasksData : List Nat
  ganttData : Option (List Nat)
  lastModifiedBy : Option Nat
  version : Nat
  createdAt : Nat
  updatedAt : Nat
deriving DecidableEq, Repr

/-- Row of the `project_members` table. -/
structure MemberRow where
  id : Nat
  projectId : Nat
  userId : Nat
  role : Role
  invitedBy : Option Nat
  invitedAt : Nat
  joinedAt : Option Nat
  status : MemberStatus
deriving DecidableEq, Repr

/-- Row of the `project_invitations` table. `usedAt = none` models
`used_at IS NULL` (unredeemed). -/
structure InvitationRow where
  id : Nat
  projectId : Nat
  email : String
  role : Role
  invitedBy : Nat
  token : String
  expiresAt : Nat
  createdAt : Nat
  usedAt : Option Nat
deriving DecidableEq, Repr

/-- Database state: the three collaboration tables plus the external
`auth.users` identity table (pairs of user id and email) that the schema
references by foreign key. -/
structure DB where
  projects : List ProjectRow
  members : List MemberRow
  invitations : List InvitationRow
  authUsers : List (Nat × String)
deriving DecidableEq, Repr

/-! ## Row-level-security policies (from the migration) -/

/-- Policy "Users can view projects they are members of": the caller has a
row in `project_members` for the project with `status = 'accepted'`. -/
def isAcceptedMember (db : DB) (uid pid : Nat) : Bool :=
  db.members.any fun m =>
    decide (m.projectId = pid ∧ m.userId = uid ∧ m.status = MemberStatus.accepted)

/-- Policy "Project members can update projects" (both its USING and its
WITH CHECK clause): the caller has an accepted membership for the project
with role owner or editor. -/
def canWriteProject (db : DB) (uid pid : Nat) : Bool :=
  db.members.any fun m =>
    decide (m.projectId = pid ∧ m.userId = uid ∧
      (m.role = Role.owner ∨ m.role = Role.editor) ∧
      m.status = MemberStatus.accepted)

/-- Policy "Project owners can manage members": the caller has an accepted
membership with role owner for the project of the touched row. -/
def canManageMembers (db : DB) (uid pid : Nat) : Bool :=
  db.members.any fun m =>
    decide (m.projectId = pid ∧ m.userId = uid ∧
      m.role = Role.owner ∧ m.status = MemberStatus.accepted)

/-- Policy "Project owners and editors can create invitations" (WITH CHECK
clause of the INSERT policy on `project_invitations`). -/
def canCreateInvitation (db : DB) (uid pid : Nat) : Bool :=
  db.members.any fun m =>
    decide (m.projectId = pid ∧ m.userId = uid ∧
      (m.role = Role.owner ∨ m.role = Role.editor) ∧
      m.status = MemberStatus.accepted)

/-! ## Storage-layer triggers (from the migration) -/

/-- Trigger function `update_project_metadata`, fired BEFORE UPDATE on
`projects`: overwrites the submitted row so that `last_modified_by` is the
caller, `version` is the OLD version plus one, and `updated_at` is now,
regardless of the values the writer supplied. -/
def update_project_metadata (old submitted : ProjectRow) (authUid : Option Nat)
    (now : Nat) : ProjectRow :=
  { submitted with
    lastModifiedBy := authUid
    version := old.version + 1
    updatedAt := now }

/-- Trigger function `add_project_owner`, fired AFTER INSERT on `projects`:
inserts a `project_members` row for the creator with role owner, status
accepted, and `joined_at = now()`. -/
def add_project_owner (db : DB) (newProject : ProjectRow) (freshMemberId now : Nat) : DB :=
  { db with
    members := db.members ++
      [{ id := freshMemberId
         projectId := newProject.id
         userId := newProject.userId
         role := Role.owner
         invitedBy := none
         invitedAt := now
         joinedAt := some now
         status := MemberStatus.accepted }] }

/-! ## Store-level reads and writes used by ProjectService.updateProject -/

/-- Partial update payload of `ProjectService.updateProject`: each field is
`some` when the caller supplied it (the code copies only supplied fields
into `updateData`). -/
structure UpdateData where
  title : Option String
  goal : Option String
  targetDate : Option String
  tasksData : Option (List Nat)
  ganttData : Option (Option (List Nat))
deriving DecidableEq, Repr

/-- Merge of a supplied `UpdateData` into an existing row, as the SQL
UPDATE built from `updateData` performs it: supplied columns are replaced,
omitted columns keep their stored value. -/
def applyUpdateData (p : ProjectRow) (u : UpdateData) : ProjectRow :=
  { p with
    title := u.title.getD p.title
    goal := u.goal.getD p.goal
    targetDate := u.targetDate.getD p.targetDate
    tasksData := u.tasksData.getD p.tasksData
    ganttData := u.ganttData.getD p.ganttData }

/-- The SELECT of the optimistic-lock check in `ProjectService.updateProject`:
`select('version').eq('id', id).single()` under the member-visibility
SELECT policy. Returns `none` when the row is absent or not visible to the
caller, in which case the service sees a check error. -/
def selectProjectVersion (db : DB) (uid pid : Nat) : Option Nat :=
  if isAcceptedMember db uid pid then
    (db.projects.find? fun p => decide (p.id = pid)).map (fun p => p.version)
  else
    none

/-- The UPDATE statement of `ProjectService.updateProject`:
`update(updateData).eq('id', id)` filtered by the row-level UPDATE policy
and passed through the `update_project_metadata` trigger. Returns the
updated row (for `.single()`), or `none` when zero rows were updated
(row absent, or the policy filtered the caller out). -/
def storeUpdateProject (db : DB) (uid now pid : Nat) (u : UpdateData) :
    DB × Option ProjectRow :=
  if canWriteProject db uid pid then
    match db.projects.find? (fun p => decide (p.id = pid)) with
    | none => (db, none)
    | some old =>
      ({ db with
          projects := db.projects.map fun p =>
            if p.id = pid then
              update_project_metadata p (applyUpdateData p u) (some uid) now
            else p },
        some (update_project_metadata old (applyUpdateData old u) (some uid) now))
  else
    (db, none)

/-! ## ProjectService operations -/

/-- Failure modes of `ProjectService.updateProject`, one per distinct throw
site in the code: missing login, failure of the optimistic-lock SELECT,
the stale-version rejection, and failure of the UPDATE itself (which is
what a caller filtered out by the row policy observes). -/
inductive UpdateError
  | notLoggedIn
  | checkFailed
  | versionConflict
  | updateFailed
deriving DecidableEq, Repr

/-- Optimistic-lock check of `ProjectService.updateProject` (the branch
taken when `updates.expectedVersion !== undefined`): read the current
version with a separate SELECT and compare it with the expected one. -/
def lockCheck (db : DB) (uid pid expectedVersion : Nat) : Except UpdateError Unit :=
  match selectProjectVersion db uid pid with
  | none => Except.error UpdateError.checkFailed
  | some v =>
    if v ≠ expectedVersion then Except.error UpdateError.versionConflict
    else Except.ok ()

/-- Second half of `ProjectService.updateProject`: run the UPDATE and turn
a zero-row result into the thrown update failure. -/
def finishUpdate (db : DB) (uid now pid : Nat) (u : UpdateData) :
    DB × Except UpdateError ProjectRow :=
  match storeUpdateProject db uid now pid u with
  | (db', some row) => (db', Except.ok row)
  | (db', none) => (db', Except.error UpdateError.updateFailed)

/-- `ProjectService.updateProject`: require a logged-in caller; when an
`expectedVersion` was supplied, run the separate optimistic-lock SELECT
and fail with the version-conflict error on mismatch; then run the UPDATE
as a second, independent store operation. -/
def updateProject (db : DB) (auth : Option Nat) (now pid : Nat) (u : UpdateData)
    (expectedVersion : Option Nat) : DB × Except UpdateError ProjectRow :=
  match auth with
  | none => (db, Except.error UpdateError.notLoggedIn)
  | some uid =>
    match (match expectedVersion with
           | none => Except.ok ()
           | some ev => lockCheck db uid pid ev) with
    | Except.error e => (db, Except.error e)
    | Except.ok () => finishUpdate db uid now pid u

/-- Failure mode of `ProjectService.createProject`: missing login. -/
inductive CreateError
  | notLoggedIn
deriving DecidableEq, Repr

/-- `ProjectService.createProject`: insert a `projects` row with
`version = 1` and `last_modified_by` the caller; the AFTER INSERT trigger
`add_project_owner` then inserts the owner membership atomically. -/
def createProject (db : DB) (auth : Option Nat) (now freshProjectId freshMemberId : Nat)
    (title goal targetDate : String) (tasks : List Nat) (gantt : Option (List Nat)) :
    DB × Except CreateError ProjectRow :=
  match auth with
  | none => (db, Except.error CreateError.notLoggedIn)
  | some uid =>
    let row : ProjectRow :=
      { id := freshProjectId
        userId := uid
        title := title
        goal := goal
        targetDate := targetDate
        tasksData := tasks
        ganttData := gantt
        lastModifiedBy := some uid
        version := 1
        createdAt := now
        updatedAt := now }
    (add_project_owner { db with projects := db.projects ++ [row] } row freshMemberId now,
      Except.ok row)

/-- Failure modes of `ProjectService.inviteToProject`: missing login, or a
rejected INSERT (row-policy WITH CHECK violation or CHECK-constraint
violation on the role column). -/
inductive InviteError
  | notLoggedIn
  | insertRejected
deriving DecidableEq, Repr

/-- `ProjectService.inviteToProject`: insert a `project_invitations` row
with the supplied project, email and role; the database fills the token
(fresh random), `expires_at = now() + interval '7 days'`, `created_at`,
and a null `used_at`. The insert performs no check against existing
memberships or existing invitations; it can only be rejected by the
INSERT row policy or by the CHECK constraint on the role column. Seven
days are 604800 seconds. -/
def inviteToProject (db : DB) (auth : Option Nat) (now freshId : Nat)
    (freshToken : String) (pid : Nat) (email : String) (role : Role) :
    DB × Except InviteError InvitationRow :=
  match auth with
  | none => (db, Except.error InviteError.notLoggedIn)
  | some uid =>
    if canCreateInvitation db uid pid ∧ (role = Role.editor ∨ role = Role.viewer) then
      let row : InvitationRow :=
        { id := freshId
          projectId := pid
          email := email
          role := role
          invitedBy := uid
          token := freshToken
          expiresAt := now + 604800
          createdAt := now
          usedAt := none }
      ({ db with invitations := db.invitations ++ [row] }, Except.ok row)
    else
      (db, Except.error InviteError.insertRejected)

/-- Failure modes of the stored function `join_project_by_invitation`, one
per error string it returns: login required, invalid or expired token,
already a member. -/
inductive JoinError
  | loginRequired
  | invalidOrExpiredToken
  | alreadyMember
deriving DecidableEq, Repr

/-- Minimal public project summary returned by a successful redemption. -/
structure ProjectSummary where
  id : Nat
  title : String
  goal : String
deriving DecidableEq, Repr

/-- Result value of `join_project_by_invitation`, mirroring its
`json_build_object` payloads. -/
inductive JoinResult
  | failure (e : JoinError)
  | success (project : Option ProjectSummary)
deriving DecidableEq, Repr

/-- Redeemability condition of the invitation lookup inside
`join_project_by_invitation`: matching token, `expires_at > now()`, and
`used_at IS NULL`. -/
def invitationLookupPred (now : Nat) (tok : String) (i : InvitationRow) : Bool :=
  decide (i.token = tok ∧ now < i.expiresAt ∧ i.usedAt = none)

/-- Stored function `join_project_by_invitation` (SECURITY DEFINER, so it
bypasses the row policies): require a caller; look up the invitation by
token among live rows; reject when the caller already has any membership
row for the project of the invitation; otherwise insert the accepted
membership and mark the invitation used, returning the project summary. -/
def join_project_by_invitation (db : DB) (auth : Option Nat) (now : Nat)
    (tok : String) (freshMemberId : Nat) : DB × JoinResult :=
  match auth with
  | none => (db, JoinResult.failure JoinError.loginRequired)
  | some uid =>
    match db.invitations.find? (invitationLookupPred now tok) with
    | none => (db, JoinResult.failure JoinError.invalidOrExpiredToken)
    | some inv =>
      let projectSummary :=
        (db.projects.find? fun p => decide (p.id = inv.projectId)).map
          fun p => ProjectSummary.mk p.id p.title p.goal
      if db.members.any (fun m => decide (m.projectId = inv.projectId ∧ m.userId = uid)) then
        (db, JoinResult.failure JoinError.alreadyMember)
      else
        ({ db with
            members := db.members ++
              [{ id := freshMemberId
                 projectId := inv.projectId
                 userId := uid
                 role := inv.role
                 invitedBy := some inv.invitedBy
                 invitedAt := now
                 joinedAt := some now
                 status := MemberStatus.accepted }]
            invitations := db.invitations.map fun i =>
              if i.id = inv.id then { i with usedAt := some now } else i },
          JoinResult.success projectSummary)

/-- Failure mode of `ProjectService.updateMemberRole` and
`ProjectService.removeMember`: only a store-level failure can make them
throw; the pure store model never produces one. -/
inductive MemberOpError
  | storeFailure
deriving DecidableEq, Repr

/-- `ProjectService.updateMemberRole`: UPDATE of the role column on
`project_members` filtered by `project_id`, `user_id`, and the manage
policy. Rows the policy hides are silently skipped; the service checks
only for a store error, so it resolves with `ok` even when zero rows
match. No validation of the requested role is performed beyond the CHECK
constraint, which admits owner. -/
def updateMemberRole (db : DB) (callerUid pid targetUid : Nat) (newRole : Role) :
    DB × Except MemberOpError Unit :=
  ({ db with
      members := db.members.map fun m =>
        if m.projectId = pid ∧ m.userId = targetUid ∧
            canManageMembers db callerUid m.projectId then
          { m with role := newRole }
        else m },
    Except.ok ())

/-- `ProjectService.removeMember`: DELETE on `project_members` filtered by
`project_id`, `user_id`, and the manage policy. Rows the policy hides are
silently kept; the service checks only for a store error, so it resolves
with `ok` even when zero rows match. -/
def removeMember (db : DB) (callerUid pid targetUid : Nat) :
    DB × Except MemberOpError Unit :=
  ({ db with
      members := db.members.filter fun m =>
        !(decide (m.projectId = pid ∧ m.userId = targetUid) &&
          canManageMembers db callerUid m.projectId) },
    Except.ok ())

/-! ## Client-side pre-checks of ProjectInviteModal.handleInvite -/

/-- Client-side rejections of `handleInvite` in `ProjectInviteModal`. -/
inductive ClientInviteError
  | emptyEmail
  | alreadyMemberMsg
  | alreadyInvitedMsg
deriving DecidableEq, Repr

/-- Pre-checks of `handleInvite` in `ProjectInviteModal`, run before the
service is called: reject an empty email, an email equal to the
`userEmail` of a listed member, or an email equal to the address of an
already-listed live invitation. -/
def handleInviteCheck (memberEmails : List (Option String))
    (invitationEmails : List String) (email : String) : Option ClientInviteError :=
  if email = "" then some ClientInviteError.emptyEmail
  else if memberEmails.any (fun e => decide (e = some email)) then
    some ClientInviteError.alreadyMemberMsg
  else if invitationEmails.any (fun e => decide (e = email)) then
    some ClientInviteError.alreadyInvitedMsg
  else none

/-! ## Interleaved execution of two concurrent updateProject calls

`ProjectService.updateProject` issues its optimistic-lock SELECT and its
UPDATE as two separate awaited store operations, so two sessions can
interleave between them. The schedule below lets both sessions run their
SELECT against the initial state before either UPDATE commits. -/

/-- Interleaving of two `updateProject` calls that both supply the same
`expectedVersion`: both optimistic-lock SELECTs execute against the
initial state, then the UPDATEs of the sessions whose check passed commit
in order. Returns the final state and each session's outcome. -/
def updateProjectRaceRRWW (db0 : DB) (u1 u2 now1 now2 pid ev : Nat)
    (upd1 upd2 : UpdateData) :
    DB × (Except UpdateError ProjectRow × Except UpdateError ProjectRow) :=
  match lockCheck db0 u1 pid ev, lockCheck db0 u2 pid ev with
  | Except.ok (), Except.ok () =>
    let r1 := finishUpdate db0 u1 now1 pid upd1
    let r2 := finishUpdate r1.1 u2 now2 pid upd2
    (r2.1, (r1.2, r2.2))
  | Except.ok (), Except.error e2 =>
    let r1 := finishUpdate db0 u1 now1 pid upd1
    (r1.1, (r1.2, Except.error e2))
  | Except.error e1, Except.ok () =>
    let r2 := finishUpdate db0 u2 now2 pid upd2
    (r2.1, (Except.error e1, r2.2))
  | Except.error e1, Except.error e2 =>
    (db0, (Except.error e1, Except.error e2))

/-! ## Derived measures used to state the invariants -/

/-- Number of accepted owner memberships of a project. -/
def acceptedOwnerCount (db : DB) (pid : Nat) : Nat :=
  (db.members.filter fun m =>
    decide (m.projectId = pid ∧ m.role = Role.owner ∧
      m.status = MemberStatus.accepted)).length

/-- One committed write as the storage layer sees it: the submitted row
content together with the caller and the commit time. -/
structure CommittedWrite where
  submitted : UpdateData
  callerUid : Nat
  at_ : Nat
deriving Repr

/-- Sequence of committed writes applied to one project row, each one
passing through the `update_project_metadata` trigger. -/
def applyCommittedWrites (p : ProjectRow) (ws : List CommittedWrite) : ProjectRow :=
  ws.foldl
    (fun acc w => update_project_metadata acc (applyUpdateData acc w.submitted)
      (some w.callerUid) w.at_)
    p

/-- Spec-side predicate: the email resolves, through the `auth.users` id
map, to an accepted membership of the project. -/
def emailResolvesToAcceptedMember (db : DB) (pid : Nat) (email : String) : Bool :=
  db.members.any fun m =>
    decide (m.projectId = pid ∧ m.status = MemberStatus.accepted) &&
    db.authUsers.any (fun u => decide (u.1 = m.userId ∧ u.2 = email))

/-- Spec-side predicate: a live (unused, unexpired) invitation for the
email exists on the project. -/
def hasLiveInvitation (db : DB) (pid : Nat) (email : String) (now : Nat) : Bool :=
  db.invitations.any fun i =>
    decide (i.projectId = pid ∧ i.email = email ∧ i.usedAt = none ∧ now < i.expiresAt)

/-! ## Concrete reachable states for witnesses and counterexamples

The scenario follows the spec walkthrough: user 10 creates a project,
invites bob (user 20) as editor, bob redeems the invitation, and a second
invitation for carol is still pending. -/

/-- Initial state: empty collaboration tables and two known identities. -/
def db0 : DB :=
  { projects := []
    members := []
    invitations := []
    authUsers := [(10, "[email protected]"), (20, "[email protected]")] }

/-- State after user 10 creates project 1. -/
def db1 : DB := (createProject db0 (some 10) 0 1 1 "Launch" "ship v1" "2025-12-01" [] none).1

/-- State after user 10 invites bob as editor (invitation id 5, token tk). -/
def db2 : DB := (inviteToProject db1 (some 10) 1 5 "tk" 1 "[email protected]" Role.editor).1

/-- State after bob (user 20) redeems token tk at time 2. -/
def db3 : DB := (join_project_by_invitation db2 (some 20) 2 "tk" 6).1

/-- State after user 10 also invites carol (invitation id 7, token tk2). -/
def db4 : DB := (inviteToProject db3 (some 10) 3 7 "tk2" 1 "[email protected]" Role.viewer).1

/-- State where bob has been demoted to viewer by the owner. -/
def dbViewer : DB := (updateMemberRole db3 10 1 20 Role.viewer).1

/-- Sample partial update touching only the title. -/
def updTitle : UpdateData :=
  { title := some "Launch v2", goal := none, targetDate := none
    tasksData := none, ganttData := none }

/-- Sample partial update touching only the goal. -/
def updGoal : UpdateData :=
  { title := none, goal := some "ship v1.1", targetDate := none
    tasksData := none, ganttData := none }

/-! ## Helper lemmas -/

/-- Each committed write through the `update_project_metadata` trigger adds
exactly one to the version, so a sequence of writes adds its length. -/
lemma applyCommittedWrites_version (ws : List CommittedWrite) (p : ProjectRow) :
    (applyCommittedWrites p ws).version = p.version + ws.length := by
  induction ws generalizing p with
  | nil => simp [applyCommittedWrites]
  | cons w ws ih =>
    have step : applyCommittedWrites p (w :: ws) =
        applyCommittedWrites
          (update_project_metadata p (applyUpdateData p w.submitted)
            (some w.callerUid) w.at_) ws := rfl
    rw [step, ih]
    simp [update_project_metadata]
    omega

/-! ## Claim theorems -/

/-- C2: on every committed update the storage trigger unconditionally sets
the version to the old version plus one, the last modifier to the caller,
and the updated-at stamp to now, regardless of the submitted row; a
created project starts at version 1, so after N committed writes its
version is 1 + N. -/
theorem C2_version_counter (old submitted : ProjectRow) (uid now : Nat)
    (db : DB) (uid0 now0 fp fm : Nat) (t g td : String) (tasks : List Nat)
    (gantt : Option (List Nat)) (ws : List CommittedWrite) :
    (update_project_metadata old submitted (some uid) now).version = old.version + 1 ∧
    (update_project_metadata old submitted (some uid) now).lastModifiedBy = some uid ∧
    (update_project_metadata old submitted (some uid) now).updatedAt = now ∧
    ∃ db' row,
      createProject db (some uid0) now0 fp fm t g td tasks gantt = (db', Except.ok row) ∧
      row.version = 1 ∧
      (applyCommittedWrites row ws).version = 1 + ws.length := by
  refine ⟨rfl, rfl, rfl, ?_⟩
  refine ⟨_, _, rfl, rfl, ?_⟩
  rw [applyCommittedWrites_version]

/-- C1: when `updateProject` is called with an `expectedVersion` by an
accepted member, a mismatch with the stored version fails with the
version-conflict error and leaves the database unchanged (no merge is
attempted), while a match lets the update through: the row content is
replaced and the trigger bumps the version by one. -/
theorem C1_updateProject_expectedVersion (db : DB) (uid now pid ev : Nat)
    (u : UpdateData) (p : ProjectRow)
    (hfind : db.projects.find? (fun q => decide (q.id = pid)) = some p)
    (hmem : isAcceptedMember db uid pid = true) :
    (p.version ≠ ev →
      updateProject db (some uid) now pid u (some ev) =
        (db, Except.error UpdateError.versionConflict)) ∧
    (p.version = ev → canWriteProject db uid pid = true →
      updateProject db (some uid) now pid u (some ev) =
        ({ db with
            projects := db.projects.map fun q =>
              if q.id = pid then
                update_project_metadata q (applyUpdateData q u) (some uid) now
              else q },
          Except.ok (update_project_metadata p (applyUpdateData p u) (some uid) now)) ∧
      (update_project_metadata p (applyUpdateData p u) (some uid) now).version =
        p.version + 1) := by
  constructor
  · intro hne
    simp [updateProject, lockCheck, selectProjectVersion, hmem, hfind, hne]
  · intro heq hw
    refine ⟨?_, rfl⟩
    simp [updateProject, lockCheck, selectProjectVersion, hmem, hfind, heq,
      finishUpdate, storeUpdateProject, hw]

/-- Witness for C1 evaluated in the scenario state: user 10 holds stale
version 7 while the stored version is 1, so the call fails with the
version-conflict error and leaves the state unchanged. -/
theorem C1_updateProject_expectedVersion_witness :
    updateProject db3 (some 10) 9 1 updTitle (some 7) =
      (db3, Except.error UpdateError.versionConflict) := by
  have h := C1_updateProject_expectedVersion db3 10 9 1 7 updTitle
    ((createProject db0 (some 10) 0 1 1 "Launch" "ship v1" "2025-12-01" [] none).2.toOption.getD
      { id := 0, userId := 0, title := "", goal := "", targetDate := "", tasksData := []
        ganttData := none, lastModifiedBy := none, version := 0, createdAt := 0, updatedAt := 0 })
    (by decide) (by decide)
  exact h.1 (by decide)

/-- C3: evaluation of the separate-read-then-separate-write implementation
of `updateProject` on the interleaving where both sessions run their
optimistic-lock SELECT before either UPDATE commits. Both callers supply
`expectedVersion = 1` against stored version 1; both calls succeed and the
stored version ends at 3, not 2, so the check and the write do not form
one indivisible conditional update. -/
theorem C3_race_both_writes_commit :
    (updateProjectRaceRRWW db3 10 20 7 8 1 1 updTitle updGoal).2.1.toOption.isSome = true ∧
    (updateProjectRaceRRWW db3 10 20 7 8 1 1 updTitle updGoal).2.2.toOption.isSome = true ∧
    ((updateProjectRaceRRWW db3 10 20 7 8 1 1 updTitle updGoal).1.projects.find?
        (fun p => decide (p.id = 1))).map (fun p => p.version) = some 3 := by
  decide

/-- C4: redemption of an invitation token succeeds only when a stored
invitation with that token is unused and unexpired; after a successful
redemption the token is marked used, so every later redemption attempt
with the same token fails with the invalid-or-expired error; and when
every invitation carrying the token is expired, redemption fails with the
invalid-or-expired error even if the token is unused. -/
theorem C4_redemption_single_use (db : DB) (uid now : Nat) (tok : String) (fid : Nat) :
    (∀ s, (join_project_by_invitation db (some uid) now tok fid).2 = JoinResult.success s →
      ∃ i, i ∈ db.invitations ∧ i.token = tok ∧ i.usedAt = none ∧ now < i.expiresAt) ∧
    ((∀ i ∈ db.invitations, ∀ j ∈ db.invitations, i.token = tok → j.token = tok → i = j) →
      ∀ s, (join_project_by_invitation db (some uid) now tok fid).2 = JoinResult.success s →
      ∀ uid2 now2 fid2,
        (join_project_by_invitation
            (join_project_by_invitation db (some uid) now tok fid).1
            (some uid2) now2 tok fid2).2 =
          JoinResult.failure JoinError.invalidOrExpiredToken) ∧
    ((∀ i ∈ db.invitations, i.token = tok → i.expiresAt ≤ now) →
      (join_project_by_invitation db (some uid) now tok fid).2 =
        JoinResult.failure JoinError.invalidOrExpiredToken) := by
  refine ⟨?_, ?_, ?_⟩
  · intro s hsucc
    cases hfind : db.invitations.find? (invitationLookupPred now tok) with
    | none => simp [join_project_by_invitation, hfind] at hsucc
    | some inv =>
      have hpred := List.find?_some hfind
      have hinvmem := List.mem_of_find?_eq_some hfind
      simp only [invitationLookupPred, decide_eq_true_eq] at hpred
      exact ⟨inv, hinvmem, hpred.1, hpred.2.2, hpred.2.1⟩
  · intro huniq s hsucc uid2 now2 fid2
    cases hfind : db.invitations.find? (invitationLookupPred now tok) with
    | none => simp [join_project_by_invitation, hfind] at hsucc
    | some inv =>
      have hpred := List.find?_some hfind
      have hinvmem := List.mem_of_find?_eq_some hfind
      simp only [invitationLookupPred, decide_eq_true_eq] at hpred
      obtain ⟨htok, hexp, hused⟩ := hpred
      by_cases hany : ∃ m ∈ db.members, m.projectId = inv.projectId ∧ m.userId = uid
      · simp [join_project_by_invitation, hfind, hany] at hsucc
      · have hdb1 : (join_project_by_invitation db (some uid) now tok fid).1 =
            { db with
              members := db.members ++
                [{ id := fid
                   projectId := inv.projectId
                   userId := uid
                   role := inv.role
                   invitedBy := some inv.invitedBy
                   invitedAt := now
                   joinedAt := some now
                   status := MemberStatus.accepted }]
              invitations := db.invitations.map fun i =>
                if i.id = inv.id then { i with usedAt := some now } else i } := by
          simp [join_project_by_invitation, hfind, hany]
        rw [hdb1]
        have hnone : (db.invitations.map fun i =>
            if i.id = inv.id then { i with usedAt := some now } else i).find?
              (invitationLookupPred now2 tok) = none := by
          rw [List.find?_eq_none]
          intro i2 hi2
          rw [List.mem_map] at hi2
          obtain ⟨i, hi, rfl⟩ := hi2
          by_cases hti : i.token = tok
          · have hieq : i = inv := huniq i hi inv hinvmem hti htok
            subst hieq
            simp [invitationLookupPred]
          · by_cases hid : i.id = inv.id <;>
              simp [invitationLookupPred, hid, hti]
        simp [join_project_by_invitation, hnone]
  · intro hexpired
    have hnone : db.invitations.find? (invitationLookupPred now tok) = none := by
      rw [List.find?_eq_none]
      intro i hi
      by_cases hti : i.token = tok
      · have hle := hexpired i hi hti
        simp [invitationLookupPred, hti, Nat.not_lt.mpr hle]
      · simp [invitationLookupPred, hti]
    simp [join_project_by_invitation, hnone]

/-- Witness for C4 in the scenario state: bob redeems token tk once with
success, and a second redemption of tk by anyone afterwards fails with
the invalid-or-expired error. -/
theorem C4_redemption_single_use_witness :
    (join_project_by_invitation db2 (some 20) 2 "tk" 6).2 =
      JoinResult.success (some (ProjectSummary.mk 1 "Launch" "ship v1")) ∧
    (join_project_by_invitation (join_project_by_invitation db2 (some 20) 2 "tk" 6).1
        (some 30) 4 "tk" 8).2 =
      JoinResult.failure JoinError.invalidOrExpiredToken := by
  refine ⟨by decide, ?_⟩
  exact (C4_redemption_single_use db2 20 2 "tk" 6).2.1 (by decide)
    (some (ProjectSummary.mk 1 "Launch" "ship v1")) (by decide) 30 4 8

/-- C5: when the invitation lookup finds a live invitation but the caller
already has a membership row for the project of the invitation, redemption
fails with the already-member error and the whole database is unchanged:
the token is not marked used and no membership is inserted, so the
invitation stays redeemable until it expires. -/
theorem C5_already_member_leaves_invitation (db : DB) (uid now fid : Nat)
    (tok : String) (inv : InvitationRow)
    (hfind : db.invitations.find? (invitationLookupPred now tok) = some inv)
    (hmem : db.members.any
      (fun m => decide (m.projectId = inv.projectId ∧ m.userId = uid)) = true) :
    join_project_by_invitation db (some uid) now tok fid =
      (db, JoinResult.failure JoinError.alreadyMember) := by
  have hmem2 : ∃ m ∈ db.members, m.projectId = inv.projectId ∧ m.userId = uid := by
    simpa [List.any_eq_true, decide_eq_true_eq] using hmem
  simp [join_project_by_invitation, hfind, hmem2]

/-- Witness for C5 in the scenario state: bob, already an accepted member,
clicks the still-live carol invitation token tk2; the call fails with the
already-member error and the state is unchanged. -/
theorem C5_already_member_leaves_invitation_witness :
    join_project_by_invitation db4 (some 20) 4 "tk2" 9 =
      (db4, JoinResult.failure JoinError.alreadyMember) := by
  exact C5_already_member_leaves_invitation db4 20 4 9 "tk2"
    ((inviteToProject db3 (some 10) 3 7 "tk2" 1 "[email protected]" Role.viewer).2.toOption.getD
      { id := 0, projectId := 0, email := "", role := Role.viewer, invitedBy := 0
        token := "", expiresAt := 0, createdAt := 0, usedAt := none })
    (by decide) (by decide)

/-- Counterexample to C6 in a reachable state: after creation and one
redeemed invitation, project 1 has exactly one accepted owner; the owner
then calls `updateMemberRole` with role owner for bob, the call resolves
with ok, and the accepted-owner count becomes 2. -/
theorem C6_second_owner_counterexample :
    acceptedOwnerCount db3 1 = 1 ∧
    (updateMemberRole db3 10 1 20 Role.owner).2 = Except.ok () ∧
    acceptedOwnerCount (updateMemberRole db3 10 1 20 Role.owner).1 1 = 2 := by
  exact ⟨by decide, rfl, by decide⟩

/-- C6 amended: the owner membership is inserted atomically with the
project by the creation trigger, so immediately after creation exactly
one accepted owner membership exists for the new project; the count is
not protected afterwards, since `updateMemberRole` can assign role owner
to a second member. -/
theorem C6_owner_unique_at_creation (db : DB) (uid now fp fm : Nat)
    (t g td : String) (tasks : List Nat) (gantt : Option (List Nat))
    (hfresh : ∀ m ∈ db.members, m.projectId ≠ fp) :
    acceptedOwnerCount (createProject db (some uid) now fp fm t g td tasks gantt).1 fp = 1 := by
  have hsplit :
      (createProject db (some uid) now fp fm t g td tasks gantt).1.members =
        db.members ++
          [{ id := fm, projectId := fp, userId := uid, role := Role.owner
             invitedBy := none, invitedAt := now, joinedAt := some now
             status := MemberStatus.accepted }] := rfl
  unfold acceptedOwnerCount
  rw [hsplit, List.filter_append]
  have hnil : db.members.filter
      (fun m => decide (m.projectId = fp ∧ m.role = Role.owner ∧
        m.status = MemberStatus.accepted)) = [] := by
    rw [List.filter_eq_nil_iff]
    intro m hm
    simp [hfresh m hm]
  rw [hnil]
  simp

/-- Witness for the amended C6: creating the project in the empty initial
state yields exactly one accepted owner membership. -/
theorem C6_owner_unique_at_creation_witness :
    acceptedOwnerCount (createProject db0 (some 10) 0 1 1 "Launch" "ship v1"
      "2025-12-01" [] none).1 1 = 1 := by
  exact C6_owner_unique_at_creation db0 10 0 1 1 "Launch" "ship v1" "2025-12-01" [] none
    (by decide)

/-- Counterexample to C7 in a reachable state: the owner requests role
owner for bob; the call does not fail with any invalid-role error, it
resolves with ok and the membership row of bob is modified to role
owner. -/
theorem C7_owner_role_applied_counterexample :
    (updateMemberRole db3 10 1 20 Role.owner).2 = Except.ok () ∧
    ((updateMemberRole db3 10 1 20 Role.owner).1.members.find?
        (fun m => decide (m.projectId = 1 ∧ m.userId = 20))).map (fun m => m.role) =
      some Role.owner := by
  exact ⟨rfl, by decide⟩

/-- C7 amended: `updateMemberRole` performs no validation of the requested
role: it always resolves with ok, and when the caller passes the manage
policy it applies the requested role, including owner, to the matching
membership rows; requesting owner is prevented only by the client UI,
which does not offer that option. -/
theorem C7_updateMemberRole_applies_owner (db : DB) (caller pid target : Nat) :
    (updateMemberRole db caller pid target Role.owner).2 = Except.ok () ∧
    (canManageMembers db caller pid = true →
      ∀ m ∈ db.members, m.projectId = pid → m.userId = target →
        { m with role := Role.owner } ∈
          (updateMemberRole db caller pid target Role.owner).1.members) := by
  refine ⟨rfl, ?_⟩
  intro hpol m hm hp hu
  refine List.mem_map.mpr ⟨m, hm, ?_⟩
  rw [if_pos]
  exact ⟨hp, hu, by rw [hp]; exact hpol⟩

/-- Witness for the amended C7: in the scenario state the owner assigns
role owner to bob; the call resolves with ok and the modified row is in
the resulting table. -/
theorem C7_updateMemberRole_applies_owner_witness :
    (updateMemberRole db3 10 1 20 Role.owner).2 = Except.ok () ∧
    ({ id := 6, projectId := 1, userId := 20, role := Role.owner
       invitedBy := some 10, invitedAt := 2, joinedAt := some 2
       status := MemberStatus.accepted } : MemberRow) ∈
      (updateMemberRole db3 10 1 20 Role.owner).1.members := by
  refine ⟨(C7_updateMemberRole_applies_owner db3 10 1 20).1, ?_⟩
  exact (C7_updateMemberRole_applies_owner db3 10 1 20).2 (by decide)
    { id := 6, projectId := 1, userId := 20, role := Role.editor
      invitedBy := some 10, invitedAt := 2, joinedAt := some 2
      status := MemberStatus.accepted }
    (by decide) (by decide) (by decide)

/-- Counterexample to C8 in a reachable state: bob already resolves to an
accepted member of project 1 and a live invitation for carol exists, yet
server-side calls of `inviteToProject` for both addresses succeed — no
already-member or already-invited rejection exists outside the client
pre-checks. -/
theorem C8_server_insert_unchecked_counterexample :
    emailResolvesToAcceptedMember db4 1 "[email protected]" = true ∧
    (inviteToProject db4 (some 10) 4 8 "tk3" 1 "[email protected]" Role.viewer).2.toOption.isSome
      = true ∧
    hasLiveInvitation db4 1 "[email protected]" 4 = true ∧
    (inviteToProject db4 (some 10) 4 9 "tk4" 1 "[email protected]" Role.viewer).2.toOption.isSome
      = true := by
  decide

/-- C8 amended: the already-member and already-invited rejections exist
only in the client pre-checks of `handleInvite`; the service call
`inviteToProject` inserts unconditionally whenever the caller passes the
insert policy and the role passes the column constraint, for any email
whatsoever, so the rejections rely solely on the caller. -/
theorem C8_invite_checks_client_only (db : DB) (uid now freshId pid : Nat)
    (freshToken email : String) (role : Role)
    (memberEmails : List (Option String)) (invitationEmails : List String) :
    (email ≠ "" → some email ∈ memberEmails →
      handleInviteCheck memberEmails invitationEmails email =
        some ClientInviteError.alreadyMemberMsg) ∧
    (email ≠ "" → some email ∉ memberEmails → email ∈ invitationEmails →
      handleInviteCheck memberEmails invitationEmails email =
        some ClientInviteError.alreadyInvitedMsg) ∧
    (canCreateInvitation db uid pid = true → (role = Role.editor ∨ role = Role.viewer) →
      inviteToProject db (some uid) now freshId freshToken pid email role =
        ({ db with invitations := db.invitations ++
            [{ id := freshId, projectId := pid, email := email, role := role
               invitedBy := uid, token := freshToken, expiresAt := now + 604800
               createdAt := now, usedAt := none }] },
          Except.ok
            { id := freshId, projectId := pid, email := email, role := role
              invitedBy := uid, token := freshToken, expiresAt := now + 604800
              createdAt := now, usedAt := none })) := by
  refine ⟨?_, ?_, ?_⟩
  · intro hne hmem
    have hany : memberEmails.any (fun e => decide (e = some email)) = true :=
      List.any_eq_true.mpr ⟨some email, hmem, by simp⟩
    simp [handleInviteCheck, hne, hany]
  · intro hne hnmem hinv
    have hany : memberEmails.any (fun e => decide (e = some email)) = false := by
      rw [List.any_eq_false]
      intro e he
      simp only [decide_eq_true_eq]
      intro heq
      exact hnmem (heq ▸ he)
    have hany2 : invitationEmails.any (fun e => decide (e = email)) = true :=
      List.any_eq_true.mpr ⟨email, hinv, by simp⟩
    simp [handleInviteCheck, hne, hany, hany2]
  · intro hpol hrole
    simp [inviteToProject, hpol, hrole]

/-- Witness for the amended C8: in the scenario state the owner can invite
bob, who is already an accepted member, and the insert succeeds. -/
theorem C8_invite_checks_client_only_witness :
    inviteToProject db4 (some 10) 4 8 "tk3" 1 "[email protected]" Role.viewer =
      ({ db4 with invitations := db4.invitations ++
          [{ id := 8, projectId := 1, email := "[email protected]", role := Role.viewer
             invitedBy := 10, token := "tk3", expiresAt := 4 + 604800
             createdAt := 4, usedAt := none }] },
        Except.ok
          { id := 8, projectId := 1, email := "[email protected]", role := Role.viewer
            invitedBy := 10, token := "tk3", expiresAt := 4 + 604800
            createdAt := 4, usedAt := none }) := by
  exact (C8_invite_checks_client_only db4 10 4 8 1 "tk3" "[email protected]" Role.viewer [] []).2.2
    (by decide) (Or.inr rfl)

/-- C9: the row policy for updating a project allows exactly the accepted
members with role owner or editor; a caller whose membership rows for the
project are all viewer, even though accepted, gets an error from
`updateProject` (the code surfaces the policy denial as the thrown update
failure) and the database is unchanged — both without an expected version
and with a matching expected version. -/
theorem C9_write_policy_viewer_denied (db : DB) (uid pid now : Nat) (u : UpdateData) :
    (canWriteProject db uid pid = true ↔
      ∃ m, m ∈ db.members ∧ m.projectId = pid ∧ m.userId = uid ∧
        (m.role = Role.owner ∨ m.role = Role.editor) ∧
        m.status = MemberStatus.accepted) ∧
    ((∀ m ∈ db.members, m.projectId = pid → m.userId = uid → m.role = Role.viewer) →
      isAcceptedMember db uid pid = true →
      updateProject db (some uid) now pid u none =
        (db, Except.error UpdateError.updateFailed) ∧
      ∀ p, db.projects.find? (fun q => decide (q.id = pid)) = some p →
        updateProject db (some uid) now pid u (some p.version) =
          (db, Except.error UpdateError.updateFailed)) := by
  constructor
  · rw [canWriteProject, List.any_eq_true]
    simp only [decide_eq_true_eq]
  · intro hviewer haccept
    have hw : canWriteProject db uid pid = false := by
      rw [canWriteProject, List.any_eq_false]
      intro m hm
      simp only [decide_eq_true_eq]
      intro ⟨hp, hu, hrole, _⟩
      rcases hrole with ho | he
      · rw [hviewer m hm hp hu] at ho
        exact Role.noConfusion ho
      · rw [hviewer m hm hp hu] at he
        exact Role.noConfusion he
    constructor
    · simp [updateProject, finishUpdate, storeUpdateProject, hw]
    · intro p hfind
      simp [updateProject, lockCheck, selectProjectVersion, haccept, hfind,
        finishUpdate, storeUpdateProject, hw]

/-- Witness for C9: in the state where bob was demoted to viewer, his
update attempt with the matching version 1 fails and changes nothing. -/
theorem C9_write_policy_viewer_denied_witness :
    updateProject dbViewer (some 20) 9 1 updGoal none =
      (dbViewer, Except.error UpdateError.updateFailed) := by
  exact ((C9_write_policy_viewer_denied dbViewer 20 1 9 updGoal).2
    (by decide) (by decide)).1

/-- C10: `removeMember` always resolves with ok — the service layer checks
only for a store error and the delete raises none, never a not-found,
forbidden, or invalid-operation failure — and when no membership row
matches the pair (or the policy filters every match out) the database is
returned unchanged, so the caller cannot distinguish a removal from a
no-op. -/
theorem C10_removeMember_silent_noop (db : DB) (caller pid target : Nat) :
    (removeMember db caller pid target).2 = Except.ok () ∧
    ((∀ m ∈ db.members, ¬(m.projectId = pid ∧ m.userId = target ∧
        canManageMembers db caller m.projectId = true)) →
      (removeMember db caller pid target).1 = db) := by
  refine ⟨rfl, ?_⟩
  intro h
  have hfil : db.members.filter
      (fun m => !(decide (m.projectId = pid ∧ m.userId = target) &&
        canManageMembers db caller m.projectId)) = db.members := by
    rw [List.filter_eq_self]
    intro m hm
    have hm2 := h m hm
    by_cases hA : m.projectId = pid ∧ m.userId = target
    · have hC : canManageMembers db caller m.projectId = false := by
        cases hcc : canManageMembers db caller m.projectId
        · rfl
        · exact absurd ⟨hA.1, hA.2, hcc⟩ hm2
      simp [hC]
    · simp [hA]
  show ({ db with members := db.members.filter _ } : DB) = db
  rw [hfil]

/-- Witness for C10: removing a user with no membership row from project 1
resolves with ok and leaves the scenario state unchanged. -/
theorem C10_removeMember_silent_noop_witness :
    (removeMember db3 10 1 99).2 = Except.ok () ∧ (removeMember db3 10 1 99).1 = db3 := by
  refine ⟨(C10_removeMember_silent_noop db3 10 1 99).1, ?_⟩
  exact (C10_removeMember_silent_noop db3 10 1 99).2 (by decide)
